import Mathlib

/-!
Shallow embedding of `pytinybeans/pytinybeans.py` (asyncio client for the
Tinybeans API) and proofs about its entry-pagination and session-state
engine.  Machine integers are modelled as `Int`/`Nat`; Python `datetime`
values are modelled by their epoch-millisecond integer (the wire format the
code parses them from and converts them back to); fallible Python code
(raised exceptions) is modelled with `Except String`; the `async` generator
`get_entries` is modelled as a fuel-indexed loop whose `none` result means
the loop has not finished within the given fuel (so `∀ fuel, … = none`
expresses divergence).
-/

namespace Pytinybeans

/-! ### Users (class `TinybeansUser`) -/

/-- `TinybeansUser`: only the fields the modelled claims touch. -/
structure TinybeansUser where
  id : Int
  username : Option String := none
  deriving Repr, DecidableEq

/-! ### Blobs (class `TinybeanBlobs`)

The pydantic model declares the single *required* field `o : str` and allows
extra fields (`extra="allow"`), which `getattr(self, k, None)` can read back.
`TinybeanBlobs(**d)` therefore fails with a `ValidationError` when the key
`"o"` is missing from the payload `d`. -/

structure TinybeanBlobs where
  o : String
  /-- extra (undeclared) fields kept by `extra="allow"`. -/
  extra : List (String × String) := []
  deriving Repr, DecidableEq

/-- Pydantic construction `TinybeanBlobs(**d)`: the declared field `o` is
required; every other key is stored as an extra attribute. -/
def TinybeanBlobs.fromDict (d : List (String × String)) :
    Except String TinybeanBlobs :=
  match d.find? (fun kv => kv.1 == "o") with
  | some kv => .ok { o := kv.2, extra := d.filter (fun kv => kv.1 != "o") }
  | none => .error "ValidationError: field required: o"

/-- `getattr(self, k, None)`: declared field `o`, else the extra mapping. -/
def TinybeanBlobs.getattrOpt (b : TinybeanBlobs) (k : String) : Option String :=
  if k = "o" then some b.o
  else (b.extra.find? (fun kv => kv.1 == k)).map (fun kv => kv.2)

/-- The fixed fallback priority order of `best`. -/
def blobPriority : List String := ["o", "o2", "t", "s", "s2", "m", "l", "p"]

/-- The loop of `best`: `if v := getattr(self, k, None): return v` — a value
is returned only when present *and* truthy (non-empty string). -/
def TinybeanBlobs.bestGo (b : TinybeanBlobs) : List String → Except String String
  | [] => .error "ValueError: No best blob found"
  | k :: ks =>
    match b.getattrOpt k with
    | some v => if v = "" then b.bestGo ks else .ok v
    | none => b.bestGo ks

/-- Property `TinybeanBlobs.best`. -/
def TinybeanBlobs.best (b : TinybeanBlobs) : Except String String :=
  b.bestGo blobPriority

/-- Spec-side description of `best` ("the first variant present in the fixed
priority order"), for comparison with the implementation. -/
def TinybeanBlobs.firstPresent (b : TinybeanBlobs) : Option String :=
  (blobPriority.filterMap fun k =>
    match b.getattrOpt k with
    | some v => if v = "" then none else some v
    | none => none).head?

/-! ### Children and journals (classes `TinybeanChild`, `TinybeanJournal`)

`TinybeanJournal.__post_init__` mutates each contained child, setting its
`_journal` back-reference to the journal object itself.  Python object
identity is modelled with a small heap: `World.journals` is the store of
journal objects and a back-reference is an address (index) into it. -/

structure TinybeanChild where
  id : Int
  first_name : String
  last_name : String
  gender : String
  /-- date of birth, already parsed from `YYYY-MM-DD`. -/
  dob : String
  /-- `_journal : Optional[TinybeanJournal]`, as an address into the heap. -/
  _journal : Option Nat := none
  deriving Repr, DecidableEq

structure TinybeanJournal where
  id : Int
  title : String
  children : List TinybeanChild
  deriving Repr, DecidableEq

/-- The heap of constructed journal objects; an address is an index. -/
structure World where
  journals : List TinybeanJournal := []
  deriving Repr, DecidableEq

/-- Constructing a `TinybeanJournal`: allocate the object and run
`__post_init__`, which sets `child._journal = self` on every child.  Returns
the new heap and the address of the journal object. -/
def TinybeanJournal.construct (w : World) (jid : Int) (title : String)
    (cs : List TinybeanChild) : World × Nat :=
  let addr := w.journals.length
  let j : TinybeanJournal :=
    { id := jid, title := title
      children := cs.map fun c => { c with _journal := some addr } }
  ({ journals := w.journals ++ [j] }, addr)

/-- Property `TinybeanChild.journal`:
`assert self._journal is not None, "journal must be set"`. -/
def TinybeanChild.journal (w : World) (c : TinybeanChild) :
    Except String TinybeanJournal :=
  match c._journal with
  | none => .error "AssertionError: journal must be set"
  | some addr =>
    match w.journals.get? addr with
    | some j => .ok j
    | none => .error "dangling journal reference"

/-! ### Entries (class `TinybeanEntry`) -/

/-- The wire payload of one entry, after generic JSON typing: the fields the
model declares.  `timestamp` is the raw epoch-millisecond value. -/
structure EntryPayload where
  id : Int
  uuid : String
  timestamp : Int
  type : String
  caption : String
  attachment_type : Option String := none
  deriving Repr, DecidableEq

/-- The keyword arguments pydantic v2 passes to a `field_validator` function
beyond `(cls, value, info)`: none.  (The source's v1-style signature
`(cls, v, values, **kwargs)` binds the third positional parameter to the
`ValidationInfo` object and leaves `**kwargs` empty.) -/
def fieldValidatorKwargs : List (String × String) := []

/-- Validator `validate_attachment_type`: `VIDEO` passes through, anything
else is replaced by `kwargs.get("type")`. -/
def validate_attachment_type (v : String) (kwargs : List (String × String)) :
    Option String :=
  if v = "VIDEO" then some v
  else (kwargs.find? (fun kv => kv.1 == "type")).map (fun kv => kv.2)

/-- The constructed `TinybeanEntry`, with `timestamp` as epoch milliseconds
(`validate_timestamp` parses ms → datetime; the datetime is represented by
that millisecond value). -/
structure TinybeanEntry where
  id : Int
  uuid : String
  timestamp : Int
  type : String
  caption : String
  attachment_type : Option String := none
  deriving Repr, DecidableEq

/-- `TinybeanEntry(**payload)`: runs the `mode="before"` validators on the
provided values (a validator does not run for an absent optional field). -/
def TinybeanEntry.construct (p : EntryPayload) : TinybeanEntry :=
  { id := p.id, uuid := p.uuid, timestamp := p.timestamp, type := p.type
    caption := p.caption
    attachment_type :=
      match p.attachment_type with
      | some v => validate_attachment_type v fieldValidatorKwargs
      | none => none }

/-- Property `timestamp_ms`: `int(self.timestamp.timestamp() * 1000)`, the
epoch-millisecond value back. -/
def TinybeanEntry.timestamp_ms (e : TinybeanEntry) : Int := e.timestamp

/-! ### The client (dataclass `PyTinybeans`): session state and login -/

/-- The mutable state of a `PyTinybeans` instance: the bearer token and the
`user` attribute set by a successful login.  (The `aiohttp` session handle is
an external collaborator and carries no modelled state.) -/
structure PyTinybeans where
  _access_token : Option String := none
  user : Option TinybeansUser := none
  deriving Repr, DecidableEq

/-- Python truthiness of `self._access_token`: not `None` and non-empty. -/
def truthy : Option String → Bool
  | some t => t != ""
  | none => false

/-- Property `logged_in`: `if self._access_token: return True; return False`. -/
def PyTinybeans.logged_in (s : PyTinybeans) : Bool := truthy s._access_token

/-- `aiohttp.ClientResponse.raise_for_status`: raises `ClientResponseError`
exactly when the status code is `>= 400`. -/
def raise_for_status (status : Nat) : Except String Unit :=
  if 400 ≤ status then .error "ClientResponseError" else .ok ()

/-- The JSON body of a successful `POST authenticate` response.  A `none`
body models a payload from which `response_json["accessToken"]` cannot be
read (`KeyError`). -/
structure AuthBody where
  accessToken : String
  user : TinybeansUser
  deriving Repr, DecidableEq

/-- What the `authenticate` endpoint answers: an HTTP status and a body. -/
structure AuthResponse where
  status : Nat
  body : Option AuthBody := none
  deriving Repr, DecidableEq

/-- Method `login(username, password)`.  Returns the new client state, the
normal or raised outcome, and the number of network requests issued by this
call.  The credentials only matter through the server's answer `resp`, which
is consulted only when a request is actually sent. -/
def PyTinybeans.login (s : PyTinybeans) (resp : AuthResponse) :
    PyTinybeans × Except String Bool × Nat :=
  if s.logged_in then
    (s, .ok s.logged_in, 0)
  else
    match raise_for_status resp.status with
    | .error e => (s, .error e, 1)
    | .ok _ =>
      match resp.body with
      | none => (s, .error "KeyError: accessToken", 1)
      | some b =>
        let s' : PyTinybeans :=
          { _access_token := some b.accessToken, user := some b.user }
        (s', .ok s'.logged_in, 1)

/-! ### `request_export` and the missing `await`

In the source, `response = self._api(...)` is *not* awaited: `response` is
the coroutine object itself, and `response.raise_for_status()` raises
`AttributeError` before any request reaches the network.  The model keeps
Python's distinction between a coroutine object and a response object. -/

/-- The request that `self._api(...)` would perform once awaited. -/
structure ExportRequest where
  method : String
  path : String
  startDate : String
  endDate : String
  deriving Repr, DecidableEq

/-- JSON body of an export response: its `status` field. -/
structure ExportBody where
  status : String
  deriving Repr, DecidableEq

/-- An export endpoint response: HTTP status and JSON body. -/
structure ExportResponse where
  status : Nat
  body : ExportBody
  deriving Repr, DecidableEq

/-- A Python value flowing through `request_export`: either the un-awaited
coroutine returned by `self._api(...)`, or an actual response object. -/
inductive PyObject where
  | coroutine (req : ExportRequest)
  | response (r : ExportResponse)
  deriving Repr, DecidableEq

/-- Attribute access `x.raise_for_status()`: defined on responses, an
`AttributeError` on a coroutine object. -/
def PyObject.raiseForStatus : PyObject → Except String Unit
  | .response r => raise_for_status r.status
  | .coroutine _ =>
    .error "AttributeError: coroutine object has no attribute raise_for_status"

/-- Attribute access `x.json()`: defined on responses, an `AttributeError`
on a coroutine object. -/
def PyObject.json : PyObject → Except String ExportBody
  | .response r => .ok r.body
  | .coroutine _ => .error "AttributeError: coroutine object has no attribute json"

/-- `strftime("%d")`-style zero padding to two digits. -/
def pad2 (n : Nat) : String :=
  if n < 10 then "0" ++ toString n else toString n

/-- `strftime("%Y")`-style zero padding to four digits. -/
def pad4 (n : Nat) : String :=
  if n < 10 then "000" ++ toString n
  else if n < 100 then "00" ++ toString n
  else if n < 1000 then "0" ++ toString n
  else toString n

/-- A calendar date (the `datetime` arguments of `request_export`, of which
only the date part is used). -/
structure Date where
  year : Nat
  month : Nat
  day : Nat
  deriving Repr, DecidableEq

/-- `strftime("%Y-%m-%d")`. -/
def strftimeYMD (d : Date) : String :=
  pad4 d.year ++ "-" ++ pad2 d.month ++ "-" ++ pad2 d.day

/-- Method `request_export(journal, start_dt, end_dt)`.  `respond` is the
server's behaviour, available but never consulted because the coroutine from
`self._api(...)` is never awaited. -/
def PyTinybeans.request_export (_s : PyTinybeans) (journal : TinybeanJournal)
    (start_dt end_dt : Date) (respond : ExportRequest → ExportResponse) :
    Except String Bool := do
  let response : PyObject := .coroutine
    { method := "POST"
      path := "/api/1/journals/" ++ toString journal.id ++ "/export"
      startDate := strftimeYMD start_dt
      endDate := strftimeYMD end_dt }
  let _ ← response.raiseForStatus
  let response_json ← response.json
  let _ := respond
  if response_json.status = "ok" then
    return true
  else
    return false

/-! ### The entry pagination engine (`get_entries`)

`get_entries` is an async generator: while the previous response's
`numEntriesRemaining` is positive (seeded with the sentinel `1`), fetch a
page for the current `last` cursor, construct each entry, stop the whole
generator as soon as `limit_check` fires, otherwise yield; after a page,
`last = entry.timestamp_ms` where `entry` is the local variable left over
from the `for` loop — unbound if no entry was ever constructed
(`UnboundLocalError`), *stale* (previous page's last entry) if this page was
empty.  The loop is modelled with fuel: result `none` means the loop is
still running after `fuel` iterations. -/

/-- The `limit` argument: `Union[None, int, datetime]` (datetimes by their
epoch-millisecond value). -/
inductive Limit where
  | none
  | int (n : Int)
  | time (t : Int)
  deriving Repr, DecidableEq

/-- One `GET journals/{id}/entries` response: HTTP status, the `entries`
array and the `numEntriesRemaining` field. -/
structure EntriesPage where
  status : Nat := 200
  entries : List EntryPayload
  numEntriesRemaining : Int
  deriving Repr, DecidableEq

/-- What a finished generator run did: the entries yielded so far, how many
page requests it issued, and whether it finished normally or by raising. -/
inductive RunResult where
  | yields (es : List TinybeanEntry) (reqs : Nat)
  | raised (es : List TinybeanEntry) (msg : String) (reqs : Nat)
  deriving Repr, DecidableEq

/-- The entries a finished run yielded to the consumer. -/
def RunResult.yielded : RunResult → List TinybeanEntry
  | .yields es _ => es
  | .raised es _ _ => es

/-- The number of page requests a finished run issued. -/
def RunResult.reqs : RunResult → Nat
  | .yields _ n => n
  | .raised _ _ n => n

/-- Whether the run finished normally (no exception). -/
def RunResult.isYields : RunResult → Bool
  | .yields _ _ => true
  | .raised _ _ _ => false

/-- Prefixing a finished run with entries already yielded and requests
already issued before it. -/
def RunResult.shift (acc : List TinybeanEntry) (r0 : Nat) :
    RunResult → RunResult
  | .yields es n => .yields (acc ++ es) (r0 + n)
  | .raised es m n => .raised (acc ++ es) m (r0 + n)

/-- The closure `limit_check(entry)` together with the `count()` iterator it
advances: returns (stop?, new counter value).  When `limit` is an `int`, the
counter is advanced by `next(_counter)` on *every* check; when it is a
datetime, the check is `limit > entry.timestamp`; otherwise never stop. -/
def limit_check (lim : Limit) (c : Nat) (e : TinybeanEntry) : Bool × Nat :=
  match lim with
  | .int n => (decide (n ≤ (c : Int)), c + 1)
  | .time t => (decide (e.timestamp < t), c)
  | .none => (false, c)

/-- The `for entry_json in response_json["entries"]` body: construct each
entry, run `limit_check`, stop the generator (`return`) when it fires, else
yield.  Returns (entries yielded from this page, final counter, stopped?). -/
def processPage (lim : Limit) (c : Nat) :
    List EntryPayload → List TinybeanEntry × Nat × Bool
  | [] => ([], c, false)
  | p :: ps =>
    let e := TinybeanEntry.construct p
    let sc := limit_check lim c e
    if sc.1 then ([], sc.2, true)
    else
      let rest := processPage lim sc.2 ps
      (e :: rest.1, rest.2.1, rest.2.2)

/-- The `while response_json.get("numEntriesRemaining", 0) > 0` loop.
`lastE` is the `entry` local left over from previous pages (`Option.none`
while unbound), `c` the `count()` state, `acc`/`r0` what was already yielded
and requested.  Fuel result `none`: still looping after `fuel` iterations. -/
def getEntriesGo (server : Int → EntriesPage) :
    Nat → Int → Option TinybeanEntry → Nat → Limit → List TinybeanEntry →
    Nat → Option RunResult
  | 0, _, _, _, _, _, _ => Option.none
  | fuel + 1, last, lastE, c, lim, acc, r0 =>
    let page := server last
    if 400 ≤ page.status then
      some (.raised acc "ClientResponseError" (r0 + 1))
    else
      let step := processPage lim c page.entries
      if step.2.2 then
        some (.yields (acc ++ step.1) (r0 + 1))
      else
        let lastE' :=
          match page.entries.getLast? with
          | some p => some (TinybeanEntry.construct p)
          | Option.none => lastE
        match lastE' with
        | Option.none =>
          some (.raised (acc ++ step.1) "UnboundLocalError: entry" (r0 + 1))
        | some e =>
          if page.numEntriesRemaining > 0 then
            getEntriesGo server fuel e.timestamp_ms (some e) step.2.1 lim
              (acc ++ step.1) (r0 + 1)
          else
            some (.yields (acc ++ step.1) (r0 + 1))

/-- Method `get_entries(child, last, limit)`: resolves `child.journal.id`
(the assert fires here if the back-reference is unset), then runs the
pagination loop from the cursor `last`. -/
def PyTinybeans.get_entries (_s : PyTinybeans) (w : World)
    (child : TinybeanChild) (server : Int → EntriesPage) (last : Int)
    (lim : Limit) (fuel : Nat) : Except String (Option RunResult) :=
  match TinybeanChild.journal w child with
  | .error e => .error e
  | .ok _ => .ok (getEntriesGo server fuel last Option.none 0 lim [] 0)

/-! ### The public interface as a transition system (for the session
invariant)

Each public operation's effect on the client state, as the code writes it:
only `login` ever assigns `self._access_token` / `self.user`; the other
operations read the token (through `_api`) but never write any field. -/

/-- One public operation together with the environment (server behaviour)
it is invoked against. -/
inductive ClientOp where
  | login (resp : AuthResponse)
  | get_followings (resp : Nat)
  | children (resp : Nat)
  | get_entries (w : World) (child : TinybeanChild)
      (server : Int → EntriesPage) (last : Int) (lim : Limit) (fuel : Nat)
  | request_export (journal : TinybeanJournal) (start_dt end_dt : Date)
      (respond : ExportRequest → ExportResponse)

/-- The state transition of one public operation.  `get_followings`,
`children`, `get_entries` and `request_export` contain no assignment to any
client attribute in the source, so they return the state unchanged;
`login`'s effect is `PyTinybeans.login`. -/
def clientStep (s : PyTinybeans) : ClientOp → PyTinybeans
  | .login resp => (s.login resp).1
  | .get_followings _ => s
  | .children _ => s
  | .get_entries _ _ _ _ _ _ => s
  | .request_export _ _ _ _ => s

/-- A sequence of public operations applied in order. -/
def runOps (s : PyTinybeans) (ops : List ClientOp) : PyTinybeans :=
  ops.foldl clientStep s

/-- The entries yielded by a finished `get_entries` run, `Option.none`
when the run raised, ran out of fuel or the back-reference assert fired. -/
def runYielded : Except String (Option RunResult) → Option (List TinybeanEntry)
  | .ok (some r) => some r.yielded
  | _ => Option.none

/-- Whether a `get_entries` run finished normally. -/
def runIsYields : Except String (Option RunResult) → Bool
  | .ok (some r) => r.isYields
  | _ => false

/-! ### Concrete sample data (used by witnesses and counterexamples) -/

/-- A child as parsed from a followings payload (back-reference unset). -/
def sampleChild : TinybeanChild :=
  { id := 1, first_name := "Ada", last_name := "L", gender := "f"
    dob := "2020-01-01" }

/-- The heap after constructing a journal over `sampleChild`. -/
def sampleWorld : World :=
  (TinybeanJournal.construct {} 7 "J" [sampleChild]).1

/-- `sampleChild` as it looks inside the constructed journal. -/
def sampleChildWithRef : TinybeanChild := { sampleChild with _journal := some 0 }

/-- The journal object sitting at address 0 of `sampleWorld`. -/
def sampleJournal : TinybeanJournal :=
  { id := 7, title := "J", children := [sampleChildWithRef] }

/-- A text entry payload with the given epoch-millisecond timestamp. -/
def samplePayload (ts : Int) : EntryPayload :=
  { id := ts, uuid := "u", timestamp := ts, type := "TEXT", caption := "" }

/-- The entry constructed from `samplePayload ts`. -/
def sampleEntry (ts : Int) : TinybeanEntry :=
  TinybeanEntry.construct (samplePayload ts)

/-- A server whose every page holds entries 300, 200, 100 and reports no
entries remaining. -/
def sampleServer : Int → EntriesPage :=
  fun _ =>
    { entries := [samplePayload 300, samplePayload 200, samplePayload 100]
      numEntriesRemaining := 0 }

/-- A server that answers the initial cursor 0 with one entry (timestamp 50)
and `numEntriesRemaining = 5`, and every later cursor with an *empty* page
still reporting `numEntriesRemaining = 5`: the anomaly of claim C3. -/
def divergingServer : Int → EntriesPage :=
  fun last =>
    if last = 0 then { entries := [samplePayload 50], numEntriesRemaining := 5 }
    else { entries := [], numEntriesRemaining := 5 }

/-- A `POST authenticate` answer for valid credentials. -/
def authOk : AuthResponse :=
  { status := 200, body := some { accessToken := "tok", user := { id := 3 } } }

/-- A redirect answer (not 2xx, but below 400) whose body still carries a
token. -/
def authRedirect : AuthResponse :=
  { status := 302, body := some { accessToken := "tok", user := { id := 3 } } }

/-- A rejected-credentials answer. -/
def authDenied : AuthResponse := { status := 401 }

/-- A client already holding a (truthy) token. -/
def authedClient : PyTinybeans := { _access_token := some "tok" }

/-- A `PHOTO` entry payload whose wire `attachmentType` is `IMAGE`. -/
def photoPayload : EntryPayload :=
  { id := 1, uuid := "u", timestamp := 0, type := "PHOTO", caption := ""
    attachment_type := some "IMAGE" }

/-- A run of every public operation against an authenticated client. -/
def sampleOps : List ClientOp :=
  [ClientOp.get_followings 0,
   ClientOp.login authDenied,
   ClientOp.request_export sampleJournal ⟨2024, 1, 1⟩ ⟨2024, 2, 1⟩
     (fun _ => { status := 200, body := { status := "ok" } }),
   ClientOp.get_entries sampleWorld sampleChildWithRef sampleServer 1000
     Limit.none 5,
   ClientOp.children 0]

/-! ## Helper lemmas -/

/-- `bestGo` returns the head of the non-empty variants met in key order. -/
theorem TinybeanBlobs.bestGo_eq (b : TinybeanBlobs) (ks : List String) :
    b.bestGo ks =
      match (ks.filterMap fun k =>
          match b.getattrOpt k with
          | some v => if v = "" then Option.none else some v
          | Option.none => Option.none).head? with
      | some v => Except.ok v
      | Option.none => Except.error "ValueError: No best blob found" := by
  induction ks with
  | nil => rfl
  | cons k ks ih =>
    simp only [TinybeanBlobs.bestGo, List.filterMap_cons]
    cases h : b.getattrOpt k with
    | none => simpa [h] using ih
    | some v =>
      by_cases hv : v = "" <;> simp [h, hv, ih]

/-- `bestGo` never returns the empty string (Python truthiness skips it). -/
theorem TinybeanBlobs.bestGo_ne_empty (b : TinybeanBlobs) (ks : List String)
    (v : String) (h : b.bestGo ks = Except.ok v) : v ≠ "" := by
  induction ks with
  | nil => exact absurd h (by simp [TinybeanBlobs.bestGo])
  | cons k ks ih =>
    cases hk : b.getattrOpt k with
    | none =>
      simp only [TinybeanBlobs.bestGo, hk] at h
      exact ih h
    | some u =>
      simp only [TinybeanBlobs.bestGo, hk] at h
      by_cases hu : u = ""
      · rw [if_pos hu] at h; exact ih h
      · rw [if_neg hu] at h
        cases h
        exact hu

/-- `shift` does not change how a run finished. -/
theorem RunResult.isYields_shift (acc : List TinybeanEntry) (r0 : Nat)
    (r : RunResult) : (r.shift acc r0).isYields = r.isYields := by
  cases r <;> rfl

/-- The entries of a shifted run. -/
theorem RunResult.yielded_shift (acc : List TinybeanEntry) (r0 : Nat)
    (r : RunResult) : (r.shift acc r0).yielded = acc ++ r.yielded := by
  cases r <;> rfl

/-- Two shifts compose. -/
theorem RunResult.shift_shift (acc1 acc2 : List TinybeanEntry) (r1 r2 : Nat)
    (r : RunResult) :
    (r.shift acc2 r2).shift acc1 r1 = r.shift (acc1 ++ acc2) (r1 + r2) := by
  cases r <;> simp [RunResult.shift, List.append_assoc, Nat.add_assoc]

/-- With no stopping condition, a page is consumed whole. -/
theorem processPage_none (c : Nat) (ps : List EntryPayload) :
    processPage Limit.none c ps = (ps.map TinybeanEntry.construct, c, false) := by
  induction ps generalizing c with
  | nil => rfl
  | cons p ps ih => simp [processPage, limit_check, ih]

/-- Every entry a timestamp-limited page walk yields is at or after `t`. -/
theorem processPage_time_yielded (t : Int) (c : Nat) (ps : List EntryPayload) :
    ∀ e ∈ (processPage (.time t) c ps).1, t ≤ e.timestamp := by
  induction ps generalizing c with
  | nil => intro e he; simp [processPage] at he
  | cons p ps ih =>
    intro e he
    by_cases hp : (TinybeanEntry.construct p).timestamp < t
    · simp [processPage, limit_check, hp] at he
    · simp [processPage, limit_check, hp] at he
      rcases he with rfl | he
      · exact not_lt.mp hp
      · exact ih c e he

/-- The page walk stops at the first entry strictly before `t`, yielding
exactly the entries in front of it (`next` is never called: counter
unchanged). -/
theorem processPage_time_stop (t : Int) (c : Nat) (pre : List EntryPayload)
    (p : EntryPayload) (rest : List EntryPayload)
    (hpre : ∀ q ∈ pre, t ≤ q.timestamp) (hp : p.timestamp < t) :
    processPage (.time t) c (pre ++ p :: rest) =
      (pre.map TinybeanEntry.construct, c, true) := by
  induction pre with
  | nil =>
    simp [processPage, limit_check, TinybeanEntry.construct, hp]
  | cons q pre ih =>
    have hq : ¬ (TinybeanEntry.construct q).timestamp < t :=
      not_lt.mpr (hpre q (List.mem_cons_self q pre))
    simp [processPage, limit_check, hq,
      ih fun r hr => hpre r (List.mem_cons_of_mem q hr)]

/-- With an integer limit `c + k` and counter at `c`, a page longer than `k`
stops after yielding exactly `k` entries (the `(k+1)`-th check fires the
stop before that entry is yielded). -/
theorem processPage_int_stop (c k : Nat) (ps : List EntryPayload)
    (h : k < ps.length) :
    processPage (.int ((c : Int) + (k : Int))) c ps =
      ((ps.map TinybeanEntry.construct).take k, c + k + 1, true) := by
  induction ps generalizing c k with
  | nil => simp at h
  | cons p ps ih =>
    cases k with
    | zero =>
      simp [processPage, limit_check]
    | succ k =>
      have hcond : ¬ ((c : Int) + ((k : Int) + 1) ≤ (c : Int)) := by omega
      have hlim : (c : Int) + ((k + 1 : Nat) : Int) =
          (((c + 1 : Nat)) : Int) + (k : Int) := by push_cast; ring
      have hk : k < ps.length := by simpa using h
      simp only [processPage, limit_check, hlim]
      rw [ih (c + 1) k hk]
      have : ¬ ((((c + 1 : Nat)) : Int) + (k : Int) ≤ (c : Int)) := by
        push_cast; omega
      have hc2 : ¬ ((c : Int) + 1 + (k : Int) ≤ (c : Int)) := by omega
      simp [this, hc2]
      omega

/-- With an integer limit `c + k` and counter at `c`, a page of at most `k`
entries is consumed whole, advancing the counter by its length. -/
theorem processPage_int_cont (c k : Nat) (ps : List EntryPayload)
    (h : ps.length ≤ k) :
    processPage (.int ((c : Int) + (k : Int))) c ps =
      (ps.map TinybeanEntry.construct, c + ps.length, false) := by
  induction ps generalizing c k with
  | nil => simp [processPage]
  | cons p ps ih =>
    cases k with
    | zero => simp at h
    | succ k =>
      have hlim : (c : Int) + ((k + 1 : Nat) : Int) =
          (((c + 1 : Nat)) : Int) + (k : Int) := by push_cast; ring
      have hk : ps.length ≤ k := by simpa using h
      simp only [processPage, limit_check, hlim]
      rw [ih (c + 1) k hk]
      have : ¬ ((((c + 1 : Nat)) : Int) + (k : Int) ≤ (c : Int)) := by
        push_cast; omega
      have hc2 : ¬ ((c : Int) + 1 + (k : Int) ≤ (c : Int)) := by omega
      simp [this, hc2]
      omega

/-- The pagination loop is invariant under what was already yielded and
requested: running with accumulators is the clean run, shifted. -/
theorem getEntriesGo_shift (server : Int → EntriesPage) :
    ∀ (fuel : Nat) (last : Int) (lastE : Option TinybeanEntry) (c : Nat)
      (lim : Limit) (acc : List TinybeanEntry) (r0 : Nat),
      getEntriesGo server fuel last lastE c lim acc r0 =
        (getEntriesGo server fuel last lastE c lim [] 0).map
          (RunResult.shift acc r0) := by
  intro fuel
  induction fuel with
  | zero => intro last lastE c lim acc r0; rfl
  | succ fuel ih =>
    intro last lastE c lim acc r0
    simp only [getEntriesGo]
    by_cases hst : 400 ≤ (server last).status
    · simp [hst, RunResult.shift]
    · simp only [hst, if_false]
      by_cases hstop : (processPage lim c (server last).entries).2.2 = true
      · simp [hstop, RunResult.shift]
      · simp only [Bool.not_eq_true] at hstop
        simp only [hstop, Bool.false_eq_true, if_false]
        cases hl : (server last).entries.getLast? with
        | none =>
          cases lastE with
          | none => simp [RunResult.shift]
          | some e =>
            by_cases hrem : (server last).numEntriesRemaining > 0
            · simp only [hrem, if_true]
              rw [ih _ _ _ _ (([] : List TinybeanEntry) ++
                (processPage lim c (server last).entries).1) (0 + 1),
                ih _ _ _ _ (acc ++
                  (processPage lim c (server last).entries).1) (r0 + 1)]
              cases hrec : getEntriesGo server fuel e.timestamp_ms (some e)
                  (processPage lim c (server last).entries).2.1 lim [] 0 with
              | none => simp [hrec]
              | some r => simp [hrec, RunResult.shift_shift]
            · simp [hrem, RunResult.shift]
        | some p =>
          by_cases hrem : (server last).numEntriesRemaining > 0
          · simp only [hrem, if_true]
            rw [ih _ _ _ _ (([] : List TinybeanEntry) ++
              (processPage lim c (server last).entries).1) (0 + 1),
              ih _ _ _ _ (acc ++
                (processPage lim c (server last).entries).1) (r0 + 1)]
            cases hrec : getEntriesGo server fuel
                (TinybeanEntry.construct p).timestamp_ms
                (some (TinybeanEntry.construct p))
                (processPage lim c (server last).entries).2.1 lim [] 0 with
            | none => simp [hrec]
            | some r => simp [hrec, RunResult.shift_shift]
          · simp [hrem, RunResult.shift]

/-- With the back-reference resolvable, `get_entries` is the pagination
loop from the given cursor. -/
theorem get_entries_ok (s : PyTinybeans) (w : World) (child : TinybeanChild)
    (server : Int → EntriesPage) (last : Int) (lim : Limit) (fuel : Nat)
    (j : TinybeanJournal) (hj : TinybeanChild.journal w child = Except.ok j) :
    s.get_entries w child server last lim fuel =
      Except.ok (getEntriesGo server fuel last Option.none 0 lim [] 0) := by
  unfold PyTinybeans.get_entries
  rw [hj]

/-- After `divergingServer`'s first page, the loop state (cursor 50, stale
`entry`, empty pages with `numEntriesRemaining = 5`) reproduces itself: no
amount of fuel finishes the loop. -/
theorem diverging_go (fuel : Nat) :
    ∀ (c r0 : Nat) (acc : List TinybeanEntry),
      getEntriesGo divergingServer fuel 50 (some (sampleEntry 50)) c
        Limit.none acc r0 = Option.none := by
  induction fuel with
  | zero => intro c r0 acc; rfl
  | succ fuel ih =>
    intro c r0 acc
    have hsv : divergingServer 50 =
        { entries := [], numEntriesRemaining := 5 } := by
      norm_num [divergingServer]
    simp only [getEntriesGo, hsv]
    norm_num [processPage, TinybeanEntry.timestamp_ms, sampleEntry,
      samplePayload, TinybeanEntry.construct]
    exact ih c (r0 + 1) acc

/-- Whatever a timestamp-limited pagination run yields beyond entries
already accumulated is at or after the limit `T`. -/
theorem go_time_yielded (server : Int → EntriesPage) (T : Int) :
    ∀ (fuel : Nat) (last : Int) (lastE : Option TinybeanEntry) (c : Nat)
      (acc : List TinybeanEntry) (r0 : Nat) (r : RunResult),
      getEntriesGo server fuel last lastE c (.time T) acc r0 = some r →
      (∀ e ∈ acc, T ≤ e.timestamp) →
      ∀ e ∈ r.yielded, T ≤ e.timestamp := by
  intro fuel
  induction fuel with
  | zero =>
    intro last lastE c acc r0 r h
    exact absurd h (by simp [getEntriesGo])
  | succ fuel ih =>
    intro last lastE c acc r0 r hrun hacc
    have hnext : ∀ e ∈ acc ++ (processPage (.time T) c (server last).entries).1,
        T ≤ e.timestamp := by
      intro e he
      rcases List.mem_append.mp he with h1 | h2
      · exact hacc e h1
      · exact processPage_time_yielded T c (server last).entries e h2
    simp only [getEntriesGo] at hrun
    by_cases hst : 400 ≤ (server last).status
    · simp only [hst, if_true] at hrun
      obtain rfl := Option.some_inj.mp hrun
      exact hacc
    · simp only [hst, if_false] at hrun
      by_cases hstop : (processPage (.time T) c (server last).entries).2.2 = true
      · simp only [hstop, if_true] at hrun
        obtain rfl := Option.some_inj.mp hrun
        exact hnext
      · simp only [Bool.not_eq_true] at hstop
        simp only [hstop, Bool.false_eq_true, if_false] at hrun
        cases hl : (server last).entries.getLast? with
        | none =>
          cases lastE with
          | none =>
            simp only [hl] at hrun
            obtain rfl := Option.some_inj.mp hrun
            exact hnext
          | some e =>
            simp only [hl] at hrun
            by_cases hrem : (server last).numEntriesRemaining > 0
            · rw [if_pos hrem] at hrun
              exact ih _ _ _ _ _ _ hrun hnext
            · rw [if_neg hrem] at hrun
              obtain rfl := Option.some_inj.mp hrun
              exact hnext
        | some p =>
          simp only [hl] at hrun
          by_cases hrem : (server last).numEntriesRemaining > 0
          · rw [if_pos hrem] at hrun
            exact ih _ _ _ _ _ _ hrun hnext
          · rw [if_neg hrem] at hrun
            obtain rfl := Option.some_inj.mp hrun
            exact hnext

/-- The integer-limited run follows the unlimited run and cuts it to the
first `k` entries: if the unlimited (`limit=None`) run from some loop state
finishes normally with entries `r.yielded`, and `k` of them exist, then the
run from the same state with limit `c + k` and counter `c` finishes
normally yielding exactly `r.yielded.take k` (the counter check fires
before the `(k+1)`-th yield).  The unlimited run's counter is stated at `0`;
it is never consulted. -/
theorem go_int_of_none (server : Int → EntriesPage) :
    ∀ (fuel : Nat) (last : Int) (lastE : Option TinybeanEntry) (c k : Nat)
      (r : RunResult),
      getEntriesGo server fuel last lastE 0 Limit.none [] 0 = some r →
      r.isYields = true →
      k ≤ r.yielded.length →
      ∃ n : Nat,
        getEntriesGo server fuel last lastE c
          (.int ((c : Int) + (k : Int))) [] 0 =
          some (RunResult.yields (r.yielded.take k) n) := by
  intro fuel
  induction fuel with
  | zero =>
    intro last lastE c k r h
    exact absurd h (by simp [getEntriesGo])
  | succ fuel ih =>
    intro last lastE c k r hrun hy hk
    by_cases hst : 400 ≤ (server last).status
    · exfalso
      simp only [getEntriesGo, hst, if_true] at hrun
      obtain rfl := Option.some_inj.mp hrun
      simp [RunResult.isYields] at hy
    · simp only [getEntriesGo, hst, if_false, processPage_none,
        List.nil_append, Nat.zero_add] at hrun
      cases hl : (server last).entries.getLast? with
      | none =>
        have hent : (server last).entries = [] :=
          List.getLast?_eq_none_iff.mp hl
        cases lastE with
        | none =>
          exfalso
          simp only [hl] at hrun
          obtain rfl := Option.some_inj.mp hrun
          simp [RunResult.isYields] at hy
        | some e =>
          simp only [hl] at hrun
          rw [hent] at hrun
          simp only [List.map_nil] at hrun
          by_cases hrem : (server last).numEntriesRemaining > 0
          · rw [if_pos hrem] at hrun
            rw [getEntriesGo_shift] at hrun
            cases hrec : getEntriesGo server fuel e.timestamp_ms (some e) 0
                Limit.none [] 0 with
            | none => rw [hrec] at hrun; exact absurd hrun (by simp)
            | some r1 =>
              rw [hrec] at hrun
              obtain rfl := Option.some_inj.mp hrun
              have hy1 : r1.isYields = true := by
                rw [RunResult.isYields_shift] at hy; exact hy
              have hk1 : k ≤ r1.yielded.length := by
                rw [RunResult.yielded_shift] at hk
                simpa using hk
              obtain ⟨n1, hn1⟩ := ih e.timestamp_ms (some e) c k r1 hrec
                hy1 hk1
              refine ⟨1 + n1, ?_⟩
              simp only [getEntriesGo, hst, if_false, hent, processPage,
                List.getLast?_nil, List.map_nil, List.nil_append,
                Nat.zero_add]
              rw [if_pos hrem, getEntriesGo_shift, hn1]
              simp [RunResult.shift, RunResult.yielded_shift]
              cases r1 <;> rfl
          · rw [if_neg hrem] at hrun
            obtain rfl := Option.some_inj.mp hrun
            simp only [RunResult.yielded, List.length_nil,
              Nat.le_zero] at hk
            subst hk
            refine ⟨1, ?_⟩
            simp only [getEntriesGo, hst, if_false, hent, processPage,
              List.getLast?_nil, List.map_nil, List.nil_append, Nat.zero_add]
            rw [if_neg hrem]
            simp [RunResult.yielded]
      | some p =>
        simp only [hl] at hrun
        by_cases hrem : (server last).numEntriesRemaining > 0
        · rw [if_pos hrem] at hrun
          rw [getEntriesGo_shift] at hrun
          cases hrec : getEntriesGo server fuel
              (TinybeanEntry.construct p).timestamp_ms
              (some (TinybeanEntry.construct p)) 0 Limit.none [] 0 with
          | none => rw [hrec] at hrun; exact absurd hrun (by simp)
          | some r1 =>
            rw [hrec] at hrun
            obtain rfl := Option.some_inj.mp hrun
            have hy1 : r1.isYields = true := by
              rw [RunResult.isYields_shift] at hy; exact hy
            by_cases hkl : k < (server last).entries.length
            · refine ⟨1, ?_⟩
              simp only [getEntriesGo, hst, if_false]
              rw [processPage_int_stop c k _ hkl]
              have hkle : k ≤
                  ((server last).entries.map TinybeanEntry.construct).length := by
                rw [List.length_map]; omega
              simp [RunResult.yielded_shift,
                List.take_append_of_le_length hkle]
            · push_neg at hkl
              have hk1 : k - (server last).entries.length ≤
                  r1.yielded.length := by
                rw [RunResult.yielded_shift] at hk
                simp only [List.length_append, List.length_map] at hk
                omega
              obtain ⟨n1, hn1⟩ := ih (TinybeanEntry.construct p).timestamp_ms
                (some (TinybeanEntry.construct p))
                (c + (server last).entries.length)
                (k - (server last).entries.length) r1 hrec hy1 hk1
              have hcast : (c : Int) + (k : Int) =
                  (((c + (server last).entries.length : Nat)) : Int) +
                  ((k - (server last).entries.length : Nat) : Int) := by
                omega
              refine ⟨1 + n1, ?_⟩
              simp only [getEntriesGo, hst, if_false]
              rw [processPage_int_cont c k _ hkl]
              simp only [hl]
              rw [if_pos hrem, hcast, getEntriesGo_shift, hn1]
              have hlenle : ((server last).entries.map
                  TinybeanEntry.construct).length ≤ k := by
                rw [List.length_map]; omega
              simp [RunResult.shift]
              cases r1 <;>
                simp [RunResult.yielded, List.take_append_eq_append_take,
                  List.take_of_length_le hlenle, List.length_map]
        · rw [if_neg hrem] at hrun
          obtain rfl := Option.some_inj.mp hrun
          simp only [RunResult.yielded, List.length_map] at hk
          by_cases hkl : k < (server last).entries.length
          · refine ⟨1, ?_⟩
            simp only [getEntriesGo, hst, if_false]
            rw [processPage_int_stop c k _ hkl]
            simp [RunResult.yielded]
          · push_neg at hkl
            have hkeq : k = (server last).entries.length := by omega
            refine ⟨1, ?_⟩
            simp only [getEntriesGo, hst, if_false]
            rw [processPage_int_cont c k _ hkl]
            simp only [hl]
            rw [if_neg hrem]
            have hlenle : ((server last).entries.map
                TinybeanEntry.construct).length ≤ k := by
              rw [List.length_map]; omega
            simp [RunResult.yielded, List.take_of_length_le hlenle]

/-- A `login` call on an authenticated client does not change the state. -/
theorem PyTinybeans.login_state_of_logged_in (s : PyTinybeans)
    (resp : AuthResponse) (h : s.logged_in = true) : (s.login resp).1 = s := by
  simp [PyTinybeans.login, h]

/-- No public operation changes the state of an authenticated client. -/
theorem clientStep_of_logged_in (s : PyTinybeans) (op : ClientOp)
    (h : s.logged_in = true) : clientStep s op = s := by
  cases op with
  | login resp => exact PyTinybeans.login_state_of_logged_in s resp h
  | get_followings resp => rfl
  | children resp => rfl
  | get_entries w child server last lim fuel => rfl
  | request_export journal sd ed respond => rfl

/-! ## Claims -/

/-- C4: for every `TinybeanJournal` constructed over children, every child
stored in the constructed journal carries a back-reference to the address of
that very journal object (identity in the heap model), and reading it back
through the `journal` property returns that journal; reading `journal` on a
child whose back-reference was never set fails fast with the assertion
error instead of returning `None`. -/
theorem journal_backref_identity :
    (∀ (w : World) (jid : Int) (t : String) (cs : List TinybeanChild)
        (j : TinybeanJournal),
        (TinybeanJournal.construct w jid t cs).1.journals.get?
            (TinybeanJournal.construct w jid t cs).2 = some j →
        ∀ c ∈ j.children,
          c._journal = some (TinybeanJournal.construct w jid t cs).2 ∧
          TinybeanChild.journal (TinybeanJournal.construct w jid t cs).1 c =
            Except.ok j) ∧
    (∀ (w : World) (c : TinybeanChild), c._journal = Option.none →
        TinybeanChild.journal w c =
          Except.error "AssertionError: journal must be set") := by
  constructor
  · intro w jid t cs j hj c hc
    have hget : (TinybeanJournal.construct w jid t cs).1.journals.get?
        (TinybeanJournal.construct w jid t cs).2 =
        some { id := jid, title := t
               children := cs.map fun c =>
                 { c with _journal := some w.journals.length } } :=
      by rw [List.get?_eq_getElem?]; exact List.getElem?_concat_length _ _
    rw [hget] at hj
    obtain rfl := Option.some_inj.mp hj
    simp only [List.mem_map] at hc
    obtain ⟨c0, _, rfl⟩ := hc
    refine ⟨rfl, ?_⟩
    have hget2 : (TinybeanJournal.construct w jid t cs).1.journals[
        w.journals.length]? =
        some { id := jid, title := t
               children := cs.map fun c =>
                 { c with _journal := some w.journals.length } } :=
      List.getElem?_concat_length _ _
    simp [TinybeanChild.journal, hget2]
  · intro w c h
    unfold TinybeanChild.journal
    rw [h]

/-- C4 witness: the concrete journal over `sampleChild`. -/
theorem journal_backref_identity_witness :
    sampleChildWithRef._journal = some 0 ∧
    TinybeanChild.journal sampleWorld sampleChildWithRef =
      Except.ok sampleJournal ∧
    TinybeanChild.journal {} sampleChild =
      Except.error "AssertionError: journal must be set" := by
  have h1 := journal_backref_identity.1 {} 7 "J" [sampleChild] sampleJournal
    (by rfl) sampleChildWithRef (by rw [show sampleJournal.children =
      [sampleChildWithRef] from rfl]; exact List.mem_singleton.mpr rfl)
  exact ⟨h1.1, h1.2, journal_backref_identity.2 {} sampleChild rfl⟩

/-- C5 (amended): `best()` returns the first *non-empty* variant in the
fixed priority order o, o2, t, s, s2, m, l, p and raises the
`LookupExhausted`-style `ValueError` when no non-empty variant exists; it
never returns the empty string.  Constructing a `Blobs` from `{}` does
raise, but at construction (`ValidationError`, the declared field `o` is
required) — and for the same reason `{s:"y", l:"z"}` also fails to
construct rather than yielding `"y"`. -/
theorem blobs_best_priority :
    (∀ b : TinybeanBlobs,
        TinybeanBlobs.best b =
          match TinybeanBlobs.firstPresent b with
          | some v => Except.ok v
          | Option.none => Except.error "ValueError: No best blob found") ∧
    (∀ (b : TinybeanBlobs) (v : String),
        TinybeanBlobs.best b = Except.ok v → v ≠ "") ∧
    TinybeanBlobs.fromDict [] =
      Except.error "ValidationError: field required: o" ∧
    TinybeanBlobs.fromDict [("s", "y"), ("l", "z")] =
      Except.error "ValidationError: field required: o" :=
  ⟨fun b => TinybeanBlobs.bestGo_eq b blobPriority,
   fun b v h => TinybeanBlobs.bestGo_ne_empty b blobPriority v h,
   rfl, rfl⟩

/-- C5 witness: `best` over `{o:"x", s:"y"}` picks `"x"`, which the theorem
certifies non-empty. -/
theorem blobs_best_priority_witness :
    TinybeanBlobs.best { o := "x", extra := [("s", "y")] } = Except.ok "x" ∧
    "x" ≠ "" :=
  ⟨by rfl,
   blobs_best_priority.2.1 { o := "x", extra := [("s", "y")] } "x" (by rfl)⟩

/-- C5 counterexample: a `Blobs` from `{s:"y", l:"z"}` does not return
`"y"` from `best` — pydantic rejects the payload before `best` can run,
because the declared field `o` is required. -/
theorem blobs_best_cex :
    TinybeanBlobs.fromDict [("s", "y"), ("l", "z")] =
      Except.error "ValidationError: field required: o" := rfl

/-- C6: `login` is idempotent once authenticated: with a token held it
returns success with zero network requests and an unchanged state, so two
successive logins against valid credentials issue exactly one
authentication request in total. -/
theorem login_idempotent :
    (∀ (s : PyTinybeans) (resp : AuthResponse), s.logged_in = true →
        s.login resp = (s, Except.ok true, 0)) ∧
    (∀ (s : PyTinybeans) (resp : AuthResponse) (b : AuthBody),
        s.logged_in = false → resp.status < 400 → resp.body = some b →
        b.accessToken ≠ "" →
        (s.login resp).2.2 = 1 ∧
        ((s.login resp).1.login resp).2.2 = 0 ∧
        ((s.login resp).1.login resp).2.1 = Except.ok true ∧
        ((s.login resp).1.login resp).1 = (s.login resp).1) := by
  constructor
  · intro s resp h
    simp [PyTinybeans.login, h]
  · intro s resp b h hst hbody htok
    have hrfs : raise_for_status resp.status = Except.ok () := by
      simp [raise_for_status, Nat.not_le.mpr hst]
    have hfirst : s.login resp =
        (({ _access_token := some b.accessToken, user := some b.user } :
          PyTinybeans),
         Except.ok (PyTinybeans.logged_in
           { _access_token := some b.accessToken, user := some b.user }), 1) := by
      simp [PyTinybeans.login, h, hrfs, hbody]
    have hli : PyTinybeans.logged_in
        { _access_token := some b.accessToken, user := some b.user } = true := by
      simp [PyTinybeans.logged_in, truthy, htok]
    refine ⟨by rw [hfirst], ?_, ?_, ?_⟩ <;>
      rw [hfirst] <;> simp [PyTinybeans.login, hli]

/-- C6 witness: a fresh client logging in twice against `authOk`. -/
theorem login_idempotent_witness :
    PyTinybeans.login authedClient authOk = (authedClient, Except.ok true, 0) ∧
    (PyTinybeans.login {} authOk).2.2 = 1 ∧
    ((PyTinybeans.login {} authOk).1.login authOk).2.2 = 0 ∧
    ((PyTinybeans.login {} authOk).1.login authOk).2.1 = Except.ok true ∧
    ((PyTinybeans.login {} authOk).1.login authOk).1 =
      (PyTinybeans.login {} authOk).1 := by
  have h2 := login_idempotent.2 {} authOk
    { accessToken := "tok", user := { id := 3 } }
    (by rfl) (by decide) (by rfl) (by decide)
  exact ⟨login_idempotent.1 authedClient authOk (by rfl),
    h2.1, h2.2.1, h2.2.2.1, h2.2.2.2⟩

/-- C7 (amended): a status of 400 or above makes `login` raise the
transport error and leaves the session unchanged and Unauthenticated; but
the failure test is `status >= 400` (aiohttp's `raise_for_status`), not
"non-2xx": a 3xx answer is let through. -/
theorem login_failure_unauthenticated :
    ∀ (s : PyTinybeans) (resp : AuthResponse), s.logged_in = false →
      400 ≤ resp.status →
      s.login resp = (s, Except.error "ClientResponseError", 1) ∧
      (s.login resp).1.logged_in = false := by
  intro s resp h hst
  have hrfs : raise_for_status resp.status =
      Except.error "ClientResponseError" := by
    simp [raise_for_status, hst]
  have hlg : s.login resp = (s, Except.error "ClientResponseError", 1) := by
    simp [PyTinybeans.login, h, hrfs]
  exact ⟨hlg, by rw [hlg]; exact h⟩

/-- C7 witness: a 401 answer to a fresh client. -/
theorem login_failure_unauthenticated_witness :
    PyTinybeans.login {} authDenied =
      ({}, Except.error "ClientResponseError", 1) ∧
    (PyTinybeans.login {} authDenied).1.logged_in = false :=
  login_failure_unauthenticated {} authDenied (by rfl) (by decide)

/-- C7 counterexample: a 302 (non-2xx) authenticate answer is not treated
as a failure — `raise_for_status` fires only at status ≥ 400 — so `login`
stores the token from the body and the client ends up Authenticated. -/
theorem login_non2xx_cex :
    PyTinybeans.login {} authRedirect =
      ({ _access_token := some "tok", user := some { id := 3 } },
       Except.ok true, 1) ∧
    PyTinybeans.logged_in
      { _access_token := some "tok", user := some { id := 3 } } = true := by
  exact ⟨rfl, rfl⟩

/-- C8: `request_export` cannot return a boolean at all: the source never
awaits `self._api(...)`, so `response` is the coroutine object and
`response.raise_for_status()` raises `AttributeError` on every call, before
any request is issued and before any `status` field could be compared. -/
theorem request_export_attribute_error :
    ∀ (s : PyTinybeans) (j : TinybeanJournal) (sd ed : Date)
      (respond : ExportRequest → ExportResponse),
      s.request_export j sd ed respond =
        Except.error
          "AttributeError: coroutine object has no attribute raise_for_status" := by
  intro s j sd ed respond
  rfl

/-- C9: construction does not fall back to the entry's own type tag: the
validator's `kwargs.get("type")` reads from the keyword arguments pydantic
passes to a field validator, which are empty, so a `PHOTO` entry with wire
`attachment_type = "IMAGE"` ends up with `attachment_type = None` (while
`"VIDEO"` does pass through). -/
theorem attachment_type_not_normalized :
    (TinybeanEntry.construct photoPayload).type = "PHOTO" ∧
    photoPayload.attachment_type = some "IMAGE" ∧
    (TinybeanEntry.construct photoPayload).attachment_type = Option.none ∧
    validate_attachment_type "VIDEO" fieldValidatorKwargs = some "VIDEO" :=
  ⟨rfl, rfl, rfl, rfl⟩

/-- C10: the Authenticated state is permanent: once the client holds a
(truthy) token, every sequence of public operations leaves the whole client
state — in particular `_access_token` — unchanged, and `logged_in` stays
true; no operation ever clears or replaces the token. -/
theorem access_token_monotone :
    ∀ (ops : List ClientOp) (s : PyTinybeans), s.logged_in = true →
      runOps s ops = s ∧ (runOps s ops).logged_in = true := by
  intro ops
  induction ops with
  | nil => exact fun s h => ⟨rfl, h⟩
  | cons op ops ih =>
    intro s h
    have hstep : clientStep s op = s := clientStep_of_logged_in s op h
    have : runOps s (op :: ops) = runOps s ops := by
      show runOps (clientStep s op) ops = runOps s ops
      rw [hstep]
    rw [this]
    exact ih s h

/-- C1: for a child with a set journal back-reference and an integer limit
`N ≥ 0`, if the unlimited run of `get_entries` over the same feed finishes
normally with at least `N` entries, the run with `limit = N` finishes
normally and yields exactly the first `N` of them: the zero-based counter
is advanced per check and the stop fires before the `(N+1)`-th entry would
be yielded. -/
theorem get_entries_int_limit
    (w : World) (child : TinybeanChild) (j : TinybeanJournal)
    (s : PyTinybeans) (server : Int → EntriesPage) (last : Int) (fuel : Nat)
    (N : Nat) (r : RunResult)
    (hj : TinybeanChild.journal w child = Except.ok j)
    (hrun : s.get_entries w child server last Limit.none fuel =
      Except.ok (some r))
    (hy : r.isYields = true)
    (hN : N ≤ r.yielded.length) :
    runIsYields (s.get_entries w child server last (.int (N : Int)) fuel) =
      true ∧
    runYielded (s.get_entries w child server last (.int (N : Int)) fuel) =
      some (r.yielded.take N) ∧
    (r.yielded.take N).length = N := by
  rw [get_entries_ok s w child server last Limit.none fuel j hj] at hrun
  obtain ⟨n, hn⟩ := go_int_of_none server fuel last Option.none 0 N r
    (Except.ok.inj hrun) hy hN
  rw [show ((0 : Nat) : Int) + (N : Int) = (N : Int) by omega] at hn
  rw [get_entries_ok s w child server last (.int (N : Int)) fuel j hj, hn]
  refine ⟨rfl, rfl, ?_⟩
  rw [List.length_take]
  omega

/-- C1 witness: `sampleServer` has 3 entries; with `limit = 2` the run
yields exactly the first two. -/
theorem get_entries_int_limit_witness :
    runIsYields (PyTinybeans.get_entries authedClient sampleWorld
        sampleChildWithRef sampleServer 1000 (.int ((2 : Nat) : Int)) 5) =
      true ∧
    runYielded (PyTinybeans.get_entries authedClient sampleWorld
        sampleChildWithRef sampleServer 1000 (.int ((2 : Nat) : Int)) 5) =
      some ((RunResult.yields
        [sampleEntry 300, sampleEntry 200, sampleEntry 100] 1).yielded.take 2) ∧
    ((RunResult.yields
        [sampleEntry 300, sampleEntry 200, sampleEntry 100] 1).yielded.take
      2).length = 2 :=
  get_entries_int_limit sampleWorld sampleChildWithRef sampleJournal
    authedClient sampleServer 1000 5 2
    (RunResult.yields [sampleEntry 300, sampleEntry 200, sampleEntry 100] 1)
    (by rfl) (by rfl) (by rfl) (by simp [RunResult.yielded])

/-- C2 (amended): with a datetime limit `T`, `get_entries` yields only
entries whose timestamp is *at or after* `T` (entries exactly at `T` are
yielded, since the code stops on the strict test `limit > entry.timestamp`),
and as soon as an entry strictly before `T` is encountered the sequence
terminates without yielding that entry and without requesting further
pages: if the first page opens with timestamps at-or-after `T` followed by
one strictly before `T`, the run ends normally after exactly one page
request, yielding exactly the leading entries. -/
theorem get_entries_time_limit
    (w : World) (child : TinybeanChild) (j : TinybeanJournal)
    (s : PyTinybeans) (server : Int → EntriesPage) (last : Int) (T : Int)
    (hj : TinybeanChild.journal w child = Except.ok j) :
    (∀ (fuel : Nat) (r : RunResult),
        s.get_entries w child server last (.time T) fuel =
          Except.ok (some r) →
        ∀ e ∈ r.yielded, T ≤ e.timestamp) ∧
    (∀ (fuel : Nat) (pre : List EntryPayload) (p : EntryPayload)
        (rest : List EntryPayload),
        (server last).entries = pre ++ p :: rest →
        (server last).status < 400 →
        (∀ q ∈ pre, T ≤ q.timestamp) → p.timestamp < T →
        s.get_entries w child server last (.time T) (fuel + 1) =
          Except.ok (some (RunResult.yields
            (pre.map TinybeanEntry.construct) 1))) := by
  constructor
  · intro fuel r hr
    rw [get_entries_ok s w child server last (.time T) fuel j hj] at hr
    exact go_time_yielded server T fuel last Option.none 0 [] 0 r
      (Except.ok.inj hr) (by simp)
  · intro fuel pre p rest hent hst hpre hp
    rw [get_entries_ok s w child server last (.time T) (fuel + 1) j hj]
    have hstF : ¬ (400 ≤ (server last).status) := not_le.mpr hst
    have hstop := processPage_time_stop T 0 pre p rest hpre hp
    simp [getEntriesGo, hent, hstop, hstF]

/-- C2 witness: against `sampleServer` (timestamps 300, 200, 100) with
limit `T = 150`: the entry at 300 is certified at-or-after `T`, and the run
stops at the entry 100 < 150 after exactly one request, yielding 300 and
200 only. -/
theorem get_entries_time_limit_witness :
    ((150 : Int) ≤ (sampleEntry 300).timestamp) ∧
    PyTinybeans.get_entries authedClient sampleWorld sampleChildWithRef
        sampleServer 1000 (.time 150) 5 =
      Except.ok (some (RunResult.yields [sampleEntry 300, sampleEntry 200] 1)) := by
  have h := get_entries_time_limit sampleWorld sampleChildWithRef
    sampleJournal authedClient sampleServer 1000 150 (by rfl)
  refine ⟨h.1 5 (RunResult.yields [sampleEntry 300, sampleEntry 200] 1)
    (by rfl) (sampleEntry 300) (by simp [RunResult.yielded]), ?_⟩
  exact h.2 4 [samplePayload 300, samplePayload 200] (samplePayload 100) []
    (by rfl) (by decide) (by decide) (by decide)

/-- C2 counterexample: with limit `T = 100` against entries 300, 200, 100,
the entry whose timestamp is exactly `T` *is* yielded (the code's test is
strict), contradicting the claim that an entry with timestamp ≤ T
terminates the sequence without being yielded. -/
theorem get_entries_time_limit_cex :
    PyTinybeans.get_entries authedClient sampleWorld sampleChildWithRef
        sampleServer 1000 (.time 100) 5 =
      Except.ok (some (RunResult.yields
        [sampleEntry 300, sampleEntry 200, sampleEntry 100] 1)) ∧
    (sampleEntry 100).timestamp = 100 := ⟨rfl, rfl⟩

/-- C3: the code does NOT defensively terminate on the empty-page anomaly.
Against a server whose later pages are empty while still reporting
`numEntriesRemaining = 5`, the cursor is re-assigned from the stale `entry`
local, so the loop re-requests the same cursor forever: for every fuel bound
the run is still unfinished (`Option.none`), i.e. the loop issues an
unbounded number of requests for the same cursor instead of treating the
empty page as end-of-stream. -/
theorem get_entries_empty_page_loops :
    ∀ fuel : Nat,
      PyTinybeans.get_entries authedClient sampleWorld sampleChildWithRef
        divergingServer 0 Limit.none fuel = Except.ok Option.none := by
  intro fuel
  rw [get_entries_ok authedClient sampleWorld sampleChildWithRef
    divergingServer 0 Limit.none fuel sampleJournal (by rfl)]
  cases fuel with
  | zero => rfl
  | succ fuel =>
    have hsv0 : divergingServer 0 =
        { entries := [samplePayload 50], numEntriesRemaining := 5 } := by
      norm_num [divergingServer]
    simp only [getEntriesGo, hsv0]
    norm_num [processPage, limit_check, TinybeanEntry.timestamp_ms,
      sampleEntry, samplePayload, TinybeanEntry.construct]
    exact diverging_go fuel 0 1 [sampleEntry 50]

/-- C10 witness: every public operation applied to an authenticated
client. -/
theorem access_token_monotone_witness :
    runOps authedClient sampleOps = authedClient ∧
    (runOps authedClient sampleOps).logged_in = true :=
  access_token_monotone sampleOps authedClient (by rfl)

end Pytinybeans
